import Mathlib

/-!
Verification of the hybrid book-recommendation core of this repository.

We shallowly embed the Python source over exact rational arithmetic:
`numpy` float vectors become `List ℚ`, Python dicts become association
lists with replace-on-insert semantics, `faiss.IndexFlatL2` becomes an
exact brute-force search over stored vectors (faiss's flat L2 index is
exact, and it returns *squared* L2 distances), and the Annoy index of the
content engine is kept abstract as a query function, since the catalog
index itself is built from out-of-scope TF-IDF vectors.
-/

/-! ## Vector primitives (numpy operations on float arrays, over ℚ) -/

/-- Element-wise vector addition (`numpy` `+` on equal-shaped arrays). -/
def vadd (u v : List ℚ) : List ℚ := List.zipWith (· + ·) u v

/-- Element-wise vector subtraction. -/
def vsub (u v : List ℚ) : List ℚ := List.zipWith (· - ·) u v

/-- Scalar multiplication of a vector (`vector * weight`). -/
def vsmul (c : ℚ) (v : List ℚ) : List ℚ := v.map (fun x => c * x)

/-- Element-wise division of a vector by a scalar (`accumulator / total_weight`). -/
def vdivs (v : List ℚ) (c : ℚ) : List ℚ := v.map (fun x => x / c)

/-- Dot product of two vectors. -/
def dot (u v : List ℚ) : ℚ := (List.zipWith (· * ·) u v).sum

/-- Squared L2 distance between two vectors, the quantity
`faiss.IndexFlatL2` computes and returns from `search` (faiss reports
squared Euclidean distances, without taking the square root). -/
def sqdistQ (u v : List ℚ) : ℚ := dot (vsub u v) (vsub u v)

/-- The all-zeros vector `np.zeros(D)`. -/
def zerosVec (D : ℕ) : List ℚ := List.replicate D 0

/-- Sum of a list of `D`-dimensional vectors starting from `np.zeros(D)`. -/
def sumVecs (D : ℕ) (vs : List (List ℚ)) : List ℚ := vs.foldl vadd (zerosVec D)

/-- `faiss.normalize_L2`: divide a vector by its L2 norm.  The norm is a
real square root, which is not rational in general; we perform the exact
division whenever the squared norm is a perfect rational square (which
covers every concrete vector appearing in this development) and leave the
vector unchanged otherwise.  None of the properties proved below depend
on the value of the normalization outside the exact case. -/
def l2normalize (v : List ℚ) : List ℚ :=
  let s := dot v v
  let r := Rat.sqrt s
  if r * r = s ∧ r ≠ 0 then v.map (fun x => x / r) else v

/-! ## Association lists: Python `dict` with replace-on-insert -/

/-- `d.get(k)` on a Python dict modelled as an association list. -/
def alookup {α β : Type} [DecidableEq α] (k : α) : List (α × β) → Option β
  | [] => none
  | (k', v) :: rest => if k = k' then some v else alookup k rest

/-- `d[k] = v` on a Python dict: replace the binding if the key exists,
append it otherwise. -/
def ainsert {α β : Type} [DecidableEq α] : List (α × β) → α → β → List (α × β)
  | [], k, v => [(k, v)]
  | (k', v') :: rest, k, v =>
      if k = k' then (k, v) :: rest else (k', v') :: ainsert rest k v

/-- `s.add(i)` on a Python set modelled as a duplicate-free list in
insertion order (set iteration order is unspecified in Python; every use
below is order-insensitive). -/
def setInsert (l : List ℕ) (i : ℕ) : List ℕ := if i ∈ l then l else l ++ [i]

/-! ## Stable insertion sort (Python's stable `list.sort`) -/

/-- Insert `a` before the first element `b` with `le a b` false:
the stable insertion step. -/
def insertSorted {α : Type} (le : α → α → Bool) (a : α) : List α → List α
  | [] => [a]
  | b :: bs => if le a b then a :: b :: bs else b :: insertSorted le a bs

/-- Stable insertion sort; with `le a b = (b.2 ≤ a.2)` this is Python's
`sort(key=lambda x: x[1], reverse=True)` (stable, descending by score). -/
def isort {α : Type} (le : α → α → Bool) (l : List α) : List α :=
  l.foldr (insertSorted le) []

/-! ## Configuration constants (`recommender/config.py`) -/

/-- `PAGE_COUNT_BONUS_WEIGHT = 0.25` (the same value is hard-coded as
`0.25` in `engine2.py`). -/
def PAGE_COUNT_BONUS_WEIGHT : ℚ := 0.25

/-- `GENRE_PREFERENCE_BONUS_WEIGHT = 0.3`. -/
def GENRE_PREFERENCE_BONUS_WEIGHT : ℚ := 0.3

/-- `COLLABORATIVE_N_NEIGHBORS = 15`. -/
def COLLABORATIVE_N_NEIGHBORS : ℕ := 15

/-! ## Data model -/

/-- One row of a user-history DataFrame (`book_title`, `rating`,
`page_count` columns; `page_count` may be absent/NaN, modelled as
`Option`). -/
structure HRow where
  book_title : String
  rating : ℚ
  page_count : Option ℚ := none
deriving DecidableEq

/-- `RecommenderModel` (`recommender/model.py`): the built content model.
The Annoy index over TF-IDF vectors is out of scope (§6 of the spec); we
keep its per-item vector accessor and the metadata columns as abstract
functions of the dense 0-based item index. -/
structure RecommenderModel where
  vector_size : ℕ
  title_to_idx : String → Option ℕ
  get_item_vector : ℕ → List ℚ
  page_count : ℕ → Option ℚ
  key_genres : ℕ → List String
  idx_to_title : ℕ → String

/-! ## TasteVectorCalculator (`recommender/taste_vector_calculator.py`) -/

/-- Row resolution in `TasteVectorCalculator.calculate`: the loop skips a
row whose title is falsy (`if not title ...: continue`) and then looks the
title up in `model.title_to_idx` (`.get`, `None` on a miss). -/
def resolveRow (m : RecommenderModel) (r : HRow) : Option ℕ :=
  if r.book_title = "" then none else m.title_to_idx r.book_title

/-- One iteration of the history loop of `calculate`: state is
`(profile_accumulator, total_weight_magnitude, valid_book_indices)`. -/
def tasteStep (m : RecommenderModel) (s : List ℚ × ℚ × List ℕ) (r : HRow) :
    List ℚ × ℚ × List ℕ :=
  match resolveRow m r with
  | none => s
  | some idx =>
      let w : ℚ := (r.rating - 3) / 2
      (vadd s.1 (vsmul w (m.get_item_vector idx)),
       s.2.1 + |w|,
       setInsert s.2.2 idx)

/-- `TasteVectorCalculator.calculate`: weighted average of item vectors
with weight `(rating - 3)/2`; falls back to the unweighted mean of the
distinct resolved item vectors when the total absolute weight is zero;
`None` when the history is empty or no row resolves. -/
def calculate (m : RecommenderModel) (h : List HRow) : Option (List ℚ) :=
  if h = [] then none
  else
    let s := h.foldl (tasteStep m) (zerosVec m.vector_size, 0, [])
    if s.2.2 = [] then none
    else if s.2.1 = 0 then
      some (vdivs (sumVecs m.vector_size (s.2.2.map m.get_item_vector))
                  ((s.2.2.length : ℚ)))
    else some (vdivs s.1 s.2.1)

/-! Specification-side reformulations of the two accumulators, used to
state C1 and C5 the way the claims phrase them. -/

/-- The `(weight, vector)` pairs of the rows of `h` that resolve, in
history order. -/
def resolvedPairs (m : RecommenderModel) (h : List HRow) : List (ℚ × List ℚ) :=
  h.filterMap (fun r =>
    (resolveRow m r).map (fun idx => ((r.rating - 3) / 2, m.get_item_vector idx)))

/-- `sum_i (w_i * v_i)` over the resolvable rows of the history. -/
def specNum (m : RecommenderModel) (h : List HRow) : List ℚ :=
  sumVecs m.vector_size ((resolvedPairs m h).map (fun p => vsmul p.1 p.2))

/-- `sum_i |w_i|` over the resolvable rows of the history. -/
def specDen (m : RecommenderModel) (h : List HRow) : ℚ :=
  ((resolvedPairs m h).map (fun p => |p.1|)).sum

/-- The distinct resolved item indices of the history, in first-occurrence
order. -/
def resolvedIdxs (m : RecommenderModel) (h : List HRow) : List ℕ :=
  (h.filterMap (resolveRow m)).foldl setInsert []

/-! ## UserProfileIndex (`recommender/user_profile_index.py`)

The FAISS structure `IndexIDMap(IndexFlatL2(d))` stores (int id, vector)
pairs in insertion order and answers `search(q, n)` with the `n` stored
vectors of smallest *squared* L2 distance to `q`, in ascending order of
distance (flat indexes are exact, not approximate).  Ids are the int64
ids supplied by the caller; this code only ever supplies non-negative
ids, so we use `ℕ`.  The `-1` padding faiss emits when asked for more
results than stored never occurs here because `search` caps the request
at `ntotal` first. -/

structure UPIState where
  vector_size : ℕ
  index : Option (List (ℕ × List ℚ))
  int_to_str_id_map : List (ℕ × String)
  str_to_int_id_map : List (String × ℕ)

/-- A fresh `UserProfileIndex(vector_size, path)`: no index, empty maps. -/
def emptyUPI (D : ℕ) : UPIState := ⟨D, none, [], []⟩

/-- `{v: k for k, v in m.items()}` — invert an int→str dict (later
duplicate values overwrite earlier ones, as in Python). -/
def invertMap (l : List (ℕ × String)) : List (String × ℕ) :=
  l.foldl (fun acc p => ainsert acc p.2 p.1) []

/-- Exact search of `IndexFlatL2` over the stored pairs: all squared L2
distances to the query, sorted ascending (stably), truncated to `n`. -/
def faissSearch (entries : List (ℕ × List ℚ)) (q : List ℚ) (n : ℕ) :
    List (ℕ × ℚ) :=
  (isort (fun a b => decide (a.2 ≤ b.2))
    (entries.map (fun e => (e.1, sqdistQ q e.2)))).take n

/-- `UserProfileIndex.build`: fresh sequential int ids `0..N-1`, all
vectors L2-normalized, both map directions rebuilt from scratch. -/
def UPIState.build (st : UPIState) (user_profiles : List (String × List ℚ)) :
    UPIState :=
  let base : UPIState := { st with index := some [], int_to_str_id_map := [],
                                   str_to_int_id_map := [] }
  if user_profiles = [] then base
  else
    let withIds : List (ℕ × (String × List ℚ)) := user_profiles.enum
    { st with
      index := some (withIds.map (fun p => (p.1, l2normalize p.2.2))),
      int_to_str_id_map := withIds.map (fun p => (p.1, p.2.1)),
      str_to_int_id_map := invertMap (withIds.map (fun p => (p.1, p.2.1))) }

/-- `UserProfileIndex.add(user_id, vector)`: normalize the vector and
`add_with_ids` it under the caller-supplied integer id.  Note that the
method touches neither `int_to_str_id_map` nor `str_to_int_id_map`; a
no-op when no index has been built or loaded. -/
def UPIState.add (st : UPIState) (user_id : ℕ) (vector : List ℚ) : UPIState :=
  match st.index with
  | none => st
  | some entries =>
      { st with index := some (entries ++ [(user_id, l2normalize vector)]) }

/-- `UserProfileIndex.search(vector, k, user_id_to_exclude)`: fetch
`k + 10` neighbors when an exclusion is requested (capped at `ntotal`),
convert each returned distance `d` to `1 - d**2 / 2`, keep entries whose
int id has a truthy string mapping different from the excluded id, and
truncate to `k`.  A falsy (empty) `user_id_to_exclude` disables the
exclusion, exactly like the source's
`str(user_id_to_exclude) if user_id_to_exclude else None`. -/
def UPIState.search (st : UPIState) (vector : List ℚ) (k : ℕ)
    (user_id_to_exclude : Option String := none) : List (String × ℚ) :=
  match st.index with
  | none => []
  | some entries =>
    if entries.length = 0 then []
    else
      let num_to_fetch := if user_id_to_exclude.isSome then k + 10 else k
      let num_to_fetch := min num_to_fetch entries.length
      let q := l2normalize vector
      let results := faissSearch entries q num_to_fetch
      let exNorm : Option String :=
        match user_id_to_exclude with
        | some e => if e = "" then none else some e
        | none => none
      let neighbors := results.filterMap (fun p =>
        match alookup p.1 st.int_to_str_id_map with
        | some s =>
            if s ≠ "" ∧ some s ≠ exNorm then some (s, (1 - p.2 ^ 2 / 2 : ℚ)) else none
        | none => none)
      neighbors.take k

/-- The two artifacts `save()` writes together: the serialized FAISS
index and the joblib-dumped int→str id map (both round-trip exactly). -/
structure UPIArtifacts where
  indexBlob : List (ℕ × List ℚ)
  mapBlob : List (ℕ × String)

/-- `UserProfileIndex.save`: writes both artifacts; writes nothing when
no index is present. -/
def UPIState.save (st : UPIState) : Option UPIArtifacts :=
  match st.index with
  | none => none
  | some entries => some ⟨entries, st.int_to_str_id_map⟩

/-- `UserProfileIndex.load`: when both artifact files exist (modelled as
`some`), replace the index and the int→str map and rebuild the str→int
map as the inverse; otherwise leave the state untouched. -/
def UPIState.load (st : UPIState) (a : Option UPIArtifacts) : UPIState :=
  match a with
  | none => st
  | some art =>
      { st with index := some art.indexBlob,
                int_to_str_id_map := art.mapBlob,
                str_to_int_id_map := invertMap art.mapBlob }

/-- The int ids present in the nearest-neighbor structure. -/
def upiIds (st : UPIState) : List ℕ :=
  match st.index with
  | none => []
  | some entries => entries.map Prod.fst

/-! ## ContentBasedAnnoyRecommender (`recommender/engine2.py`)

The Annoy index and book DataFrame are built from out-of-scope TF-IDF
vectors and Mongo data; we model the built engine as an abstract query
function (`get_nns_by_vector` with distances) plus the `page_count`
column and the title list. -/

structure Engine2State where
  index : Option (List ℚ → ℕ → List (ℕ × ℚ))
  page_count : ℕ → Option ℚ
  book_titles_list : ℕ → String

/-- The page-length bonus computed inline in
`get_recommendations_by_profile` (lines 145-174 of `engine2.py`): zero
unless `avg_page_count > 0` and the item's page count is known, positive
and within `[0.8, 1.2] * avg_page_count`; inside the band the bonus is
`0.25 * (1 - |count - avg| / avg)`.  A missing row or NaN page count
(the `try/except` and `pd.notna` guards) is the `none` case. -/
def pageBonus (avg_page_count : ℚ) (book_page_count : Option ℚ) : ℚ :=
  if 0 < avg_page_count then
    match book_page_count with
    | some pc =>
        if 0 < pc ∧ avg_page_count * 0.8 ≤ pc ∧ pc ≤ avg_page_count * 1.2 then
          0.25 * (1 - |pc - avg_page_count| / avg_page_count)
        else 0
    | none => 0
  else 0

/-- The candidate pipeline of `get_recommendations_by_profile` after the
Annoy query: drop excluded indices, score each survivor as
`(1 - d**2/2) + page_bonus`, stable-sort descending by score, keep the
first `top_n` indices. -/
def e2Pipeline (pageOf : ℕ → Option ℚ) (candidates : List (ℕ × ℚ))
    (exclude_indices : Finset ℕ) (top_n : ℕ) (avg_page_count : ℚ) : List ℕ :=
  let final_scores := candidates.filterMap (fun p =>
    if p.1 ∈ exclude_indices then none
    else some (p.1, (1 - p.2 ^ 2 / 2) + pageBonus avg_page_count (pageOf p.1)))
  ((isort (fun a b => decide (b.2 ≤ a.2)) final_scores).map Prod.fst).take top_n

/-- The indices `get_recommendations_by_profile` finally resolves to
titles (empty when the engine has no index). -/
def e2Indices (st : Engine2State) (profile_vector : List ℚ)
    (exclude_indices : Finset ℕ) (top_n : ℕ) (avg_page_count : ℚ) : List ℕ :=
  match st.index with
  | none => []
  | some query =>
      e2Pipeline st.page_count (query profile_vector (top_n * 20))
        exclude_indices top_n avg_page_count

/-- `ContentBasedAnnoyRecommender.get_recommendations_by_profile`:
query Annoy for `top_n * 20` candidates with distances, run the filter /
score / sort pipeline, and return the titles of the first `top_n`
surviving indices. -/
def get_recommendations_by_profile (st : Engine2State)
    (profile_vector : List ℚ) (exclude_indices : Finset ℕ) (top_n : ℕ)
    (avg_page_count : ℚ) : List String :=
  match st.index with
  | none => []
  | some query =>
      (e2Pipeline st.page_count (query profile_vector (top_n * 20))
        exclude_indices top_n avg_page_count).map st.book_titles_list

/-! ## RerankContext and the facade (`recommender/facade.py`) -/

/-- The per-request re-rank context dict built by
`_prepare_rerank_context` (`avg_page_count`, `preferred_genres`,
`disliked_genres`).  The source returns a literally empty dict for an
empty history; we model that as the context whose fields carry the
values its consumers read for absent keys (zero average, empty sets). -/
structure RerankContext where
  avg_page_count : ℚ
  preferred_genres : Finset String
  disliked_genres : Finset String
deriving DecidableEq

/-- Loop state of `_prepare_rerank_context`:
`(liked_page_counts, preferred_genres, disliked_genres, read_indices)`. -/
def rerankStep (m : RecommenderModel)
    (s : List ℚ × Finset String × Finset String × Finset ℕ) (r : HRow) :
    List ℚ × Finset String × Finset String × Finset ℕ :=
  match m.title_to_idx r.book_title with
  | none => s
  | some idx =>
      let liked := match r.page_count with
        | some pc => if 4 ≤ r.rating then s.1 ++ [pc] else s.1
        | none => s.1
      let genres := m.key_genres idx
      let pref := if genres ≠ [] ∧ 4 ≤ r.rating then
          s.2.1 ∪ genres.toFinset else s.2.1
      let disl := if genres ≠ [] ∧ ¬ 4 ≤ r.rating ∧ r.rating ≤ 2 then
          s.2.2.1 ∪ genres.toFinset else s.2.2.1
      (liked, pref, disl, insert idx s.2.2.2)

/-- `UserRecommenderFacade._prepare_rerank_context`: walks the history
once, collecting liked items' page counts, preferred genres (rating ≥ 4),
raw disliked genres (rating ≤ 2) and the set of read item indices; the
returned context carries the mean liked page count (0 when there is
none) and the disliked set minus the preferred set. -/
def _prepare_rerank_context (m : RecommenderModel) (h : List HRow) :
    RerankContext × Finset ℕ :=
  if h = [] then (⟨0, ∅, ∅⟩, ∅)
  else
    let s := h.foldl (rerankStep m) ([], ∅, ∅, ∅)
    let avg : ℚ := if s.1 = [] then 0 else s.1.sum / (s.1.length : ℚ)
    (⟨avg, s.2.1, s.2.2.1 \ s.2.1⟩, s.2.2.2)

/-- Modelled from the spec: the facade imports
`CollaborativeFilteringRecommender` from `recommender.engine`, but no
class of that name exists anywhere in the source tree (only its caller,
the facade, does).  Following §4.5 of the spec, `recommend` is a pure
read-only query: it searches the `UserProfileIndex` for
`num_neighbors` similar users, accumulates
`score += neighbor_similarity * (rating / 5.0)` over each neighbor's
liked interactions (`rating >= 4`) for each resolvable item, drops
accumulated items in `exclude`, applies the genre and page-count
re-rankers of §4.4, and returns the titles of the `top_n` best-scoring
items. -/
def collabRecommend (upi : UPIState) (interactions : String → List HRow)
    (m : RecommenderModel) (target_vector : List ℚ) (exclude : Finset ℕ)
    (ctx : RerankContext) (top_n num_neighbors : ℕ) : List String :=
  let neighbors := upi.search target_vector num_neighbors none
  let addScore := fun (l : List (ℕ × ℚ)) (i : ℕ) (sc : ℚ) =>
    match alookup i l with
    | some old => ainsert l i (old + sc)
    | none => ainsert l i sc
  let scores : List (ℕ × ℚ) := neighbors.foldl (fun acc (nb : String × ℚ) =>
    (interactions nb.1).foldl (fun (acc : List (ℕ × ℚ)) (r : HRow) =>
      if (4 : ℚ) ≤ r.rating then
        match m.title_to_idx r.book_title with
        | some idx => addScore acc idx (nb.2 * (r.rating / 5))
        | none => acc
      else acc) acc) []
  let kept := scores.filter (fun p => p.1 ∉ exclude)
  let rescored := kept.map (fun p =>
    (p.1, p.2
      + ((((m.key_genres p.1).toFinset ∩ ctx.preferred_genres).card : ℚ)
         - (((m.key_genres p.1).toFinset ∩ ctx.disliked_genres).card : ℚ))
        * GENRE_PREFERENCE_BONUS_WEIGHT
      + pageBonus ctx.avg_page_count (m.page_count p.1)))
  let sorted := isort (fun a b => decide (b.2 ≤ a.2)) rescored
  ((sorted.map Prod.fst).take top_n).map m.idx_to_title

/-- The mutable state the facade orchestrates: the persisted profile
store (a Mongo upsert collection keyed by user id, modelled as a dict),
the live `UserProfileIndex`, plus the read-only collaborators — the
interaction-history provider and the content model. -/
structure FacadeState where
  profile_repo : List (String × List ℚ)
  upi : UPIState
  interactions : String → List HRow
  model : RecommenderModel

/-- `UserRecommenderFacade._get_or_create_user_profile`: return the
stored vector when the user has one; otherwise compute the taste vector
from the user's history, upsert it into the profile store, and — when
the user id is not yet mapped — `add` it to the live index under
`new_int_id = len(str_to_int_id_map)` and only then write both map
directions.  Returns the profile (or `none`) together with the updated
facade state. -/
def _get_or_create_user_profile (f : FacadeState) (user_id : String) :
    Option (List ℚ) × FacadeState :=
  match alookup user_id f.profile_repo with
  | some v => (some v, f)
  | none =>
    let h := f.interactions user_id
    if h = [] then (none, f)
    else
      match calculate f.model h with
      | none => (none, f)
      | some v =>
          let repo' := ainsert f.profile_repo user_id v
          if user_id ∈ (f.upi.str_to_int_id_map).map Prod.fst then
            (some v, { f with profile_repo := repo' })
          else
            let new_int_id := (f.upi.str_to_int_id_map).length
            let upi1 := f.upi.add new_int_id v
            let upi2 := { upi1 with
              int_to_str_id_map := ainsert upi1.int_to_str_id_map new_int_id user_id,
              str_to_int_id_map := ainsert upi1.str_to_int_id_map user_id new_int_id }
            (some v, { f with profile_repo := repo', upi := upi2 })

/-- `UserRecommenderFacade.recommend_with_collaborative_filtering`:
resolve-or-create the stored profile, rebuild the re-rank context from
the user's history, and delegate to the collaborative recommender with
`COLLABORATIVE_N_NEIGHBORS` neighbors. -/
def recommend_with_collaborative_filtering (f : FacadeState)
    (user_id : String) (top_n : ℕ) : List String × FacadeState :=
  match _get_or_create_user_profile f user_id with
  | (none, f1) => ([], f1)
  | (some v, f1) =>
      let h := f1.interactions user_id
      let cr := _prepare_rerank_context f1.model h
      (collabRecommend f1.upi f1.interactions f1.model v cr.2 cr.1 top_n
        COLLABORATIVE_N_NEIGHBORS, f1)

/-! Specification-side reformulations of the re-rank context pieces,
used to state C9 the way the claim phrases it. -/

/-- The page counts contributed to `liked_page_counts`: one entry per
history row that resolves, has `rating >= 4` and a present page count. -/
def likedPagesSpec (m : RecommenderModel) (h : List HRow) : List ℚ :=
  h.filterMap (fun r =>
    match m.title_to_idx r.book_title with
    | some _ =>
        match r.page_count with
        | some pc => if (4 : ℚ) ≤ r.rating then some pc else none
        | none => none
    | none => none)

/-- The genres of the resolvable history rows with `rating <= 2`, before
the preferred genres are subtracted. -/
def rawDisliked (m : RecommenderModel) (h : List HRow) : Finset String :=
  h.foldl (fun acc r =>
    match m.title_to_idx r.book_title with
    | some idx =>
        if m.key_genres idx ≠ [] ∧ r.rating ≤ (2 : ℚ) then
          acc ∪ (m.key_genres idx).toFinset
        else acc
    | none => acc) ∅

/-! ## Concrete instances used as witnesses and counterexamples -/

/-- A two-dimensional content model with items `Alpha = [1,0]` (index 0)
and `Beta = [0,1]` (index 1). -/
def mEx : RecommenderModel where
  vector_size := 2
  title_to_idx := fun t =>
    if t = "Alpha" then some 0 else if t = "Beta" then some 1 else none
  get_item_vector := fun i =>
    if i = 0 then [1, 0] else if i = 1 then [0, 1] else [0, 0]
  page_count := fun i => if i = 0 then some 300 else if i = 1 then some 100 else none
  key_genres := fun i =>
    if i = 0 then ["fantasy", "magic"] else if i = 1 then ["horror"] else []
  idx_to_title := fun i => if i = 0 then "Alpha" else if i = 1 then "Beta" else ""

/-- A history rating `Alpha` 5 and `Beta` 1 (weights `+1` and `-1`). -/
def hEx : List HRow := [⟨"Alpha", 5, some 300⟩, ⟨"Beta", 1, some 100⟩]

/-- An all-neutral history (`rating = 3` everywhere). -/
def hExNeutral : List HRow := [⟨"Alpha", 3, none⟩, ⟨"Beta", 3, none⟩]

/-- A `UserProfileIndex` built from two opposite unit profiles. -/
def upiEx : UPIState := (emptyUPI 2).build [("u0", [1, 0]), ("u1", [-1, 0])]

/-- A facade state over `mEx` and `upiEx`: user `"u7"` already has a
stored profile, user `"u9"` has a history but no stored profile. -/
def facEx : FacadeState where
  profile_repo := [("u7", [1, 0])]
  upi := upiEx
  interactions := fun u =>
    if u = "u9" then [⟨"Alpha", 5, some 300⟩]
    else if u = "u7" then [⟨"Beta", 5, some 100⟩] else []
  model := mEx

/-- A built `engine2` state whose Annoy query returns the three
candidates `0, 1, 2` with distances `0, 1/2, 1`. -/
def e2Ex : Engine2State where
  index := some (fun _ _ => [(0, 0), (1, (1 : ℚ)/2), (2, 1)])
  page_count := fun i => if i = 0 then some 300 else none
  book_titles_list := fun i =>
    if i = 0 then "Alpha" else if i = 1 then "Beta" else "Gamma"

/-! # Theorems -/

/-! ## Sorting lemmas -/

theorem insertSorted_perm {α : Type} (le : α → α → Bool) (a : α) (l : List α) :
    List.Perm (insertSorted le a l) (a :: l) := by
  induction l with
  | nil => simp [insertSorted]
  | cons b bs ih =>
      cases hle : le a b with
      | true => simp [insertSorted, hle]
      | false =>
          simp only [insertSorted, hle, Bool.false_eq_true, if_false]
          exact (List.Perm.cons b ih).trans (List.Perm.swap a b bs)

theorem isort_perm {α : Type} (le : α → α → Bool) (l : List α) :
    List.Perm (isort le l) l := by
  induction l with
  | nil => simp [isort]
  | cons a as ih =>
      exact (insertSorted_perm le a (isort le as)).trans (List.Perm.cons a ih)

/-! ## TasteVectorCalculator lemmas -/

theorem foldl_tasteStep_fst (m : RecommenderModel) (h : List HRow)
    (a : List ℚ) (t : ℚ) (l : List ℕ) :
    (h.foldl (tasteStep m) (a, t, l)).1
      = (resolvedPairs m h).foldl (fun acc p => vadd acc (vsmul p.1 p.2)) a := by
  induction h generalizing a t l with
  | nil => rfl
  | cons r h ih =>
      cases hres : resolveRow m r with
      | none =>
          simp only [List.foldl_cons, tasteStep, hres, resolvedPairs,
            List.filterMap_cons, Option.map_none']
          exact ih a t l
      | some idx =>
          simp only [List.foldl_cons, tasteStep, hres, resolvedPairs,
            List.filterMap_cons, Option.map_some']
          exact ih _ _ _

theorem foldl_tasteStep_total (m : RecommenderModel) (h : List HRow)
    (a : List ℚ) (t : ℚ) (l : List ℕ) :
    (h.foldl (tasteStep m) (a, t, l)).2.1
      = t + ((resolvedPairs m h).map (fun p => |p.1|)).sum := by
  induction h generalizing a t l with
  | nil => simp [resolvedPairs]
  | cons r h ih =>
      cases hres : resolveRow m r with
      | none =>
          simp only [List.foldl_cons, tasteStep, hres, resolvedPairs,
            List.filterMap_cons, Option.map_none']
          exact ih a t l
      | some idx =>
          simp only [List.foldl_cons, tasteStep, hres, resolvedPairs,
            List.filterMap_cons, Option.map_some', List.map_cons, List.sum_cons]
          simp only [resolvedPairs] at ih
          rw [ih]
          ring

theorem foldl_tasteStep_valid (m : RecommenderModel) (h : List HRow)
    (a : List ℚ) (t : ℚ) (l : List ℕ) :
    (h.foldl (tasteStep m) (a, t, l)).2.2
      = (h.filterMap (resolveRow m)).foldl setInsert l := by
  induction h generalizing a t l with
  | nil => rfl
  | cons r h ih =>
      cases hres : resolveRow m r with
      | none =>
          simp only [List.foldl_cons, tasteStep, hres, List.filterMap_cons]
          exact ih a t l
      | some idx =>
          simp only [List.foldl_cons, tasteStep, hres, List.filterMap_cons]
          exact ih _ _ _

theorem setInsert_ne_nil (l : List ℕ) (i : ℕ) : setInsert l i ≠ [] := by
  unfold setInsert
  split
  · intro he
    rename_i hmem
    rw [he] at hmem
    exact absurd hmem (List.not_mem_nil i)
  · simp

theorem foldl_setInsert_ne_nil (xs : List ℕ) (l : List ℕ) (h : l ≠ []) :
    xs.foldl setInsert l ≠ [] := by
  induction xs generalizing l with
  | nil => exact h
  | cons x xs ih => exact ih _ (setInsert_ne_nil l x)

theorem resolvedPairs_nil_iff (m : RecommenderModel) (h : List HRow) :
    resolvedPairs m h = [] ↔ h.filterMap (resolveRow m) = [] := by
  induction h with
  | nil => simp [resolvedPairs]
  | cons r h ih =>
      cases hres : resolveRow m r with
      | none =>
          simp only [resolvedPairs, List.filterMap_cons, hres,
            Option.map_none'] at ih ⊢
          exact ih
      | some idx =>
          simp [resolvedPairs, List.filterMap_cons, hres]

theorem resolvedIdxs_ne_nil_of_specDen (m : RecommenderModel) (h : List HRow)
    (hden : specDen m h ≠ 0) : resolvedIdxs m h ≠ [] := by
  have hpairs : resolvedPairs m h ≠ [] := by
    intro he
    exact hden (by simp [specDen, he])
  have hfm : h.filterMap (resolveRow m) ≠ [] := by
    intro he
    exact hpairs ((resolvedPairs_nil_iff m h).2 he)
  unfold resolvedIdxs
  cases hcase : h.filterMap (resolveRow m) with
  | nil => exact absurd hcase hfm
  | cons y ys =>
      simp only [List.foldl_cons]
      exact foldl_setInsert_ne_nil ys (setInsert [] y) (setInsert_ne_nil [] y)

/-- C1: for every interaction history with at least one resolvable item
and nonzero total absolute weight, `TasteVectorCalculator.calculate`
returns `sum_i (w_i * v_i) / sum_i |w_i|` over the resolvable
interactions, with `w_i = (rating_i - 3) / 2`; unresolvable rows
contribute to neither sum (they are absent from `resolvedPairs`). -/
theorem taste_vector_is_weighted_average (m : RecommenderModel)
    (h : List HRow) (hden : specDen m h ≠ 0) :
    calculate m h = some (vdivs (specNum m h) (specDen m h)) := by
  have hidx : resolvedIdxs m h ≠ [] := resolvedIdxs_ne_nil_of_specDen m h hden
  have hh : h ≠ [] := by
    intro he
    subst he
    exact hidx rfl
  have h1 := foldl_tasteStep_fst m h (zerosVec m.vector_size) 0 []
  have h2 := foldl_tasteStep_total m h (zerosVec m.vector_size) 0 []
  have h3 := foldl_tasteStep_valid m h (zerosVec m.vector_size) 0 []
  rw [zero_add] at h2
  simp only [calculate, if_neg hh]
  rw [h3, h2]
  rw [if_neg (by exact hidx), if_neg (by exact hden)]
  congr 1
  rw [h1]
  congr 1
  unfold specNum sumVecs
  rw [List.foldl_map]

/-- Witness for C1 at the concrete model `mEx` and history `hEx`
(weights `+1` and `-1`, total absolute weight `2`). -/
theorem taste_vector_is_weighted_average_witness :
    calculate mEx hEx = some (vdivs (specNum mEx hEx) (specDen mEx hEx)) :=
  taste_vector_is_weighted_average mEx hEx (by with_unfolding_all decide)

/-- C5: for a history whose ratings are all the neutral `3` and which
resolves at least one item, `calculate` returns the unweighted
arithmetic mean of the distinct resolved item vectors. -/
theorem taste_vector_neutral_fallback_mean (m : RecommenderModel)
    (h : List HRow) (hneutral : ∀ r ∈ h, r.rating = 3)
    (hres : resolvedIdxs m h ≠ []) :
    calculate m h
      = some (vdivs
          (sumVecs m.vector_size ((resolvedIdxs m h).map m.get_item_vector))
          ((resolvedIdxs m h).length : ℚ)) := by
  have hh : h ≠ [] := by
    intro he
    subst he
    exact hres rfl
  have hden : specDen m h = 0 := by
    apply List.sum_eq_zero
    intro x hx
    rcases List.mem_map.1 hx with ⟨p, hp, hpx⟩
    rcases List.mem_filterMap.1 hp with ⟨r, hr, hres'⟩
    cases hcase : resolveRow m r with
    | none => rw [hcase] at hres'; simp at hres'
    | some idx =>
        rw [hcase] at hres'
        simp only [Option.map_some', Option.some.injEq] at hres'
        have : p.1 = (r.rating - 3) / 2 := by rw [← hres']
        rw [← hpx, this, hneutral r hr]
        norm_num
  have h2 := foldl_tasteStep_total m h (zerosVec m.vector_size) 0 []
  have h3 := foldl_tasteStep_valid m h (zerosVec m.vector_size) 0 []
  rw [zero_add] at h2
  simp only [calculate, if_neg hh]
  rw [h3, h2]
  have hden2 : (List.map (fun p => |p.1|) (resolvedPairs m h)).sum = 0 := hden
  rw [hden2]
  have hres2 : ¬ (List.foldl setInsert []
      (List.filterMap (resolveRow m) h) = []) := hres
  rw [if_neg hres2, if_pos rfl]
  rfl

/-- Witness for C5 at the all-neutral history `hExNeutral` over `mEx`
(mean of `[1,0]` and `[0,1]`). -/
theorem taste_vector_neutral_fallback_mean_witness :
    calculate mEx hExNeutral
      = some (vdivs
          (sumVecs mEx.vector_size
            ((resolvedIdxs mEx hExNeutral).map mEx.get_item_vector))
          ((resolvedIdxs mEx hExNeutral).length : ℚ)) :=
  taste_vector_neutral_fallback_mean mEx hExNeutral
    (by with_unfolding_all decide) (by with_unfolding_all decide)

/-- C4 (counterexample): the claim says an item of length 360 with
`avg_page_length = 300` receives a bonus of exactly 0; the code gives it
`0.25 * (1 - 0.2) = 1/5 ≠ 0` because the formula reaches 0 only at
`|length - avg| = avg`, not at the 20% band edge. -/
theorem page_bonus_band_edge_not_zero :
    ¬ (pageBonus 300 (some 360) = 0) := by
  with_unfolding_all decide

/-- C4 (amended): with `avg_page_length = 300`, an item of length 300
receives exactly `W_page`, an item of length 360 (the 20% band edge)
receives `0.8 * W_page = 1/5`, and an item of length 500 (outside the
band) receives 0. -/
theorem page_bonus_values :
    pageBonus 300 (some 300) = PAGE_COUNT_BONUS_WEIGHT
      ∧ pageBonus 300 (some 360) = (4 / 5) * PAGE_COUNT_BONUS_WEIGHT
      ∧ pageBonus 300 (some 500) = 0 := by
  refine ⟨?_, ?_, ?_⟩ <;> with_unfolding_all decide

/-- C2 (code bug): `UserProfileIndex.search` converts the value faiss
returns — a *squared* L2 distance — with `1 - d**2 / 2`, squaring it a
second time.  On the index of the two opposite unit profiles `u0 = [1,0]`
and `u1 = [-1,0]`, the query `[1,0]` yields the "similarity" `-7` for
`u1`, far outside the `[-1, 1]` range the spec asserts (the Annoy-based
content engine, whose library returns unsquared angular distances, is
unaffected). -/
theorem search_similarity_escapes_unit_interval :
    (("u1", (-7 : ℚ)) ∈ UPIState.search upiEx [1, 0] 2 none)
      ∧ ((-7 : ℚ) < -1) := by
  refine ⟨?_, ?_⟩ <;> with_unfolding_all decide

/-! ## UserProfileIndex search lemmas -/

theorem search_filterMap_elim (itos : List (ℕ × String)) (exNorm : Option String)
    (results : List (ℕ × ℚ)) (p : String × ℚ)
    (hp : p ∈ results.filterMap (fun q =>
        match alookup q.1 itos with
        | some s =>
            if s ≠ "" ∧ some s ≠ exNorm then some (s, (1 - q.2 ^ 2 / 2 : ℚ))
            else none
        | none => none)) :
    p.1 ≠ "" ∧ some p.1 ≠ exNorm ∧ ∃ i, alookup i itos = some p.1 := by
  rcases List.mem_filterMap.1 hp with ⟨q, hq, hfq⟩
  cases halo : alookup q.1 itos with
  | none => rw [halo] at hfq; simp at hfq
  | some s =>
      rw [halo] at hfq
      replace hfq : (if s ≠ "" ∧ some s ≠ exNorm then
          some (s, (1 - q.2 ^ 2 / 2 : ℚ)) else none) = some p := hfq
      by_cases hcond : s ≠ "" ∧ some s ≠ exNorm
      · rw [if_pos hcond] at hfq
        simp only [Option.some.injEq] at hfq
        have hfst : p.1 = s := by rw [← hfq]
        refine ⟨hfst ▸ hcond.1, hfst ▸ hcond.2, q.1, ?_⟩
        rw [halo, hfst]
      · rw [if_neg hcond] at hfq
        simp at hfq

/-- C7: `UserProfileIndex.search` with an exclusion never returns the
excluded user id, returns only user ids that occur in the int→str map,
and returns at most `k` results. -/
theorem search_excludes_and_truncates (st : UPIState) (v : List ℚ) (k : ℕ)
    (u : String) :
    (∀ p ∈ st.search v k (some u),
        p.1 ≠ u ∧ ∃ i, alookup i st.int_to_str_id_map = some p.1)
      ∧ (st.search v k (some u)).length ≤ k := by
  obtain ⟨D, idx, itos, stoi⟩ := st
  cases idx with
  | none =>
      refine ⟨fun p hp => absurd hp ?_, ?_⟩ <;>
        simp [UPIState.search]
  | some entries =>
      by_cases hlen : entries.length = 0
      · refine ⟨fun p hp => absurd hp ?_, ?_⟩ <;>
          simp [UPIState.search, hlen]
      · constructor
        · intro p hp
          simp only [UPIState.search, if_neg hlen] at hp
          have hp' := List.mem_of_mem_take hp
          have helim := search_filterMap_elim itos
            (if u = "" then none else some u) _ p hp'
          refine ⟨?_, helim.2.2⟩
          by_cases hu : u = ""
          · rw [hu]; exact helim.1
          · have := helim.2.1
            rw [if_neg hu] at this
            intro he
            exact this (by rw [he])
        · simp only [UPIState.search, if_neg hlen]
          exact List.length_take_le k _

/-- Witness for C7 on `upiEx`: the query `[1,0]` with `k = 1` excluding
`"u1"` — whose profile is in the index — returns `("u0", 1)`, which is
not `"u1"`, is int-mapped, and the result has length at most 1. -/
theorem search_excludes_and_truncates_witness :
    (("u0", (1 : ℚ)).1 ≠ "u1"
      ∧ ∃ i, alookup i upiEx.int_to_str_id_map = some ("u0", (1 : ℚ)).1)
      ∧ (upiEx.search [1, 0] 1 (some "u1")).length ≤ 1 :=
  ⟨(search_excludes_and_truncates upiEx [1, 0] 1 "u1").1 ("u0", 1)
      (by with_unfolding_all decide),
   (search_excludes_and_truncates upiEx [1, 0] 1 "u1").2⟩

/-- C8: searching a freshly constructed `UserProfileIndex` after
`load()`-ing the two artifacts written by `save()` returns exactly the
ordered `(user_id, similarity)` list the saved instance returns, for
every query vector, `k` and exclusion (`search` reads only the stored
vectors and the int→str map, and both round-trip unchanged). -/
theorem search_persistence_round_trip (st : UPIState)
    (es : List (ℕ × List ℚ)) (hst : st.index = some es)
    (v : List ℚ) (k : ℕ) (ex : Option String) :
    ((emptyUPI st.vector_size).load st.save).search v k ex
      = st.search v k ex := by
  obtain ⟨D, idx, itos, stoi⟩ := st
  simp only at hst
  subst hst
  rfl

/-- Witness for C8 on the built index `upiEx` with query `[1,0]`. -/
theorem search_persistence_round_trip_witness :
    ((emptyUPI upiEx.vector_size).load upiEx.save).search [1, 0] 1 none
      = upiEx.search [1, 0] 1 none :=
  search_persistence_round_trip upiEx [(0, [1, 0]), (1, [-1, 0])]
    (by with_unfolding_all decide) [1, 0] 1 none

/-! ## Association-list lemmas for the id maps -/

theorem alookup_ainsert_self {α β : Type} [DecidableEq α]
    (l : List (α × β)) (k : α) (v : β) :
    alookup k (ainsert l k v) = some v := by
  induction l with
  | nil => simp [ainsert, alookup]
  | cons kv rest ih =>
      obtain ⟨k', v'⟩ := kv
      by_cases hk : k = k'
      · simp [ainsert, hk, alookup]
      · simp only [ainsert, if_neg hk, alookup]
        exact ih

/-- C3 (counterexample): `UserProfileIndex.add` inserts the vector into
the nearest-neighbor structure under the supplied int id but touches
neither id map: after `upiEx.add 5 [0,1]` the id `5` is present in the
structure yet has no entry in the int→str direction. -/
theorem add_inserts_without_updating_maps :
    (5 ∈ upiIds (upiEx.add 5 [0, 1]))
      ∧ alookup 5 (upiEx.add 5 [0, 1]).int_to_str_id_map = none := by
  refine ⟨?_, ?_⟩ <;> with_unfolding_all decide

/-- C3 (amended): the id maps are maintained by the caller, not by
`add` itself: when `_get_or_create_user_profile` creates a profile for a
user with no stored vector, a nonempty history, a computable taste
vector and an unmapped user id, it inserts the vector under
`new_int_id = len(str_to_int_id_map)` and then writes both map
directions, so afterwards the new int id is present in the structure and
in both directions of the id map. -/
theorem facade_create_updates_both_maps (f : FacadeState) (user_id : String)
    (es : List (ℕ × List ℚ)) (v : List ℚ)
    (hrepo : alookup user_id f.profile_repo = none)
    (hhist : f.interactions user_id ≠ [])
    (hcalc : calculate f.model (f.interactions user_id) = some v)
    (hmap : user_id ∉ (f.upi.str_to_int_id_map).map Prod.fst)
    (hidx : f.upi.index = some es) :
    alookup (f.upi.str_to_int_id_map).length
        ((_get_or_create_user_profile f user_id).2.upi.int_to_str_id_map)
      = some user_id
    ∧ alookup user_id
        ((_get_or_create_user_profile f user_id).2.upi.str_to_int_id_map)
      = some (f.upi.str_to_int_id_map).length
    ∧ (f.upi.str_to_int_id_map).length
        ∈ upiIds (_get_or_create_user_profile f user_id).2.upi := by
  simp only [_get_or_create_user_profile, hrepo, if_neg hhist, hcalc,
    if_neg hmap]
  refine ⟨alookup_ainsert_self _ _ _, alookup_ainsert_self _ _ _, ?_⟩
  simp only [upiIds, UPIState.add, hidx]
  simp [List.mem_map]

/-- Witness for C3's amended statement: creating the profile of user
`"u9"` (history: `Alpha` rated 5) in `facEx` maps the fresh int id `2`
in both directions and inserts it into the structure. -/
theorem facade_create_updates_both_maps_witness :
    alookup (facEx.upi.str_to_int_id_map).length
        ((_get_or_create_user_profile facEx "u9").2.upi.int_to_str_id_map)
      = some "u9"
    ∧ alookup "u9"
        ((_get_or_create_user_profile facEx "u9").2.upi.str_to_int_id_map)
      = some (facEx.upi.str_to_int_id_map).length
    ∧ (facEx.upi.str_to_int_id_map).length
        ∈ upiIds (_get_or_create_user_profile facEx "u9").2.upi :=
  facade_create_updates_both_maps facEx "u9" [(0, [1, 0]), (1, [-1, 0])] [1, 0]
    (by with_unfolding_all decide) (by with_unfolding_all decide)
    (by with_unfolding_all decide) (by with_unfolding_all decide)
    (by with_unfolding_all decide)

/-! ## Content-engine exclusion -/

theorem e2Pipeline_not_mem_exclude (pageOf : ℕ → Option ℚ)
    (candidates : List (ℕ × ℚ)) (ex : Finset ℕ) (top_n : ℕ) (avg : ℚ)
    (i : ℕ) (hi : i ∈ e2Pipeline pageOf candidates ex top_n avg) : i ∉ ex := by
  intro hmem
  simp only [e2Pipeline] at hi
  have hi' := List.mem_of_mem_take hi
  rcases List.mem_map.1 hi' with ⟨p, hp, hpi⟩
  have hp' := (isort_perm (fun a b : ℕ × ℚ => decide (b.2 ≤ a.2)) _).mem_iff.1 hp
  rcases List.mem_filterMap.1 hp' with ⟨q, hq, hfq⟩
  by_cases hqe : q.1 ∈ ex
  · rw [if_pos hqe] at hfq
    simp at hfq
  · rw [if_neg hqe] at hfq
    simp only [Option.some.injEq] at hfq
    apply hqe
    have : p.1 = q.1 := by rw [← hfq]
    rw [← this, hpi]
    exact hmem

/-- C6: `get_recommendations_by_profile` returns exactly the titles of
the indices selected by the filter/score/sort pipeline, and no selected
index — hence no returned title's item — belongs to the supplied
exclusion set (candidates in `exclude_indices` are dropped before
scoring). -/
theorem recommendations_avoid_excluded_items (st : Engine2State)
    (profile_vector : List ℚ) (exclude_indices : Finset ℕ) (top_n : ℕ)
    (avg_page_count : ℚ) :
    get_recommendations_by_profile st profile_vector exclude_indices top_n
        avg_page_count
      = (e2Indices st profile_vector exclude_indices top_n
          avg_page_count).map st.book_titles_list
    ∧ ∀ i ∈ e2Indices st profile_vector exclude_indices top_n avg_page_count,
        i ∉ exclude_indices := by
  obtain ⟨idx, pc, titles⟩ := st
  constructor
  · cases idx <;> rfl
  · intro i hi
    cases idx with
    | none => simp [e2Indices] at hi
    | some query =>
        simp only [e2Indices] at hi
        exact e2Pipeline_not_mem_exclude _ _ _ _ _ i hi

/-- Witness for C6 on the concrete engine `e2Ex`, excluding index 1:
the pipeline keeps index 0, which is not excluded. -/
theorem recommendations_avoid_excluded_items_witness :
    get_recommendations_by_profile e2Ex [1, 0] {1} 2 0
        = (e2Indices e2Ex [1, 0] {1} 2 0).map e2Ex.book_titles_list
    ∧ (0 : ℕ) ∉ ({1} : Finset ℕ) :=
  ⟨(recommendations_avoid_excluded_items e2Ex [1, 0] {1} 2 0).1,
   (recommendations_avoid_excluded_items e2Ex [1, 0] {1} 2 0).2 0
      (by with_unfolding_all decide)⟩

/-! ## Re-rank context lemmas -/

theorem foldl_rerankStep_liked (m : RecommenderModel) (h : List HRow) :
    ∀ s, (h.foldl (rerankStep m) s).1 = s.1 ++ likedPagesSpec m h := by
  induction h with
  | nil => intro s; simp [likedPagesSpec]
  | cons r h ih =>
      intro s
      simp only [List.foldl_cons]
      rw [ih]
      cases hres : m.title_to_idx r.book_title with
      | none => simp [rerankStep, hres, likedPagesSpec, List.filterMap_cons]
      | some idx =>
          cases hpc : r.page_count with
          | none =>
              simp [rerankStep, hres, hpc, likedPagesSpec, List.filterMap_cons]
          | some pc =>
              by_cases h4 : (4 : ℚ) ≤ r.rating
              · simp [rerankStep, hres, hpc, h4, likedPagesSpec,
                  List.filterMap_cons]
              · simp [rerankStep, hres, hpc, h4, likedPagesSpec,
                  List.filterMap_cons]

theorem rerankStep_disl (m : RecommenderModel)
    (s : List ℚ × Finset String × Finset String × Finset ℕ) (r : HRow) :
    (rerankStep m s r).2.2.1
      = (match m.title_to_idx r.book_title with
         | some idx =>
             if m.key_genres idx ≠ [] ∧ r.rating ≤ (2 : ℚ) then
               s.2.2.1 ∪ (m.key_genres idx).toFinset
             else s.2.2.1
         | none => s.2.2.1) := by
  cases hres : m.title_to_idx r.book_title with
  | none => simp [rerankStep, hres]
  | some idx =>
      by_cases h2 : r.rating ≤ (2 : ℚ)
      · have h4 : ¬ (4 : ℚ) ≤ r.rating := by intro h4; linarith
        simp [rerankStep, hres, h2, h4]
      · simp [rerankStep, hres, h2]

theorem foldl_rerankStep_disl (m : RecommenderModel) (h : List HRow) :
    ∀ s, (h.foldl (rerankStep m) s).2.2.1
      = h.foldl (fun acc r =>
          match m.title_to_idx r.book_title with
          | some idx =>
              if m.key_genres idx ≠ [] ∧ r.rating ≤ (2 : ℚ) then
                acc ∪ (m.key_genres idx).toFinset
              else acc
          | none => acc) s.2.2.1 := by
  induction h with
  | nil => intro s; rfl
  | cons r h ih =>
      intro s
      simp only [List.foldl_cons]
      rw [ih]
      congr 1
      exact rerankStep_disl m s r

theorem prepare_avg_formula (m : RecommenderModel) (h : List HRow) :
    (_prepare_rerank_context m h).1.avg_page_count
      = (if likedPagesSpec m h = [] then 0
         else (likedPagesSpec m h).sum / ((likedPagesSpec m h).length : ℚ)) := by
  by_cases hh : h = []
  · subst hh
    simp [_prepare_rerank_context, likedPagesSpec]
  · simp only [_prepare_rerank_context, if_neg hh]
    have hl := foldl_rerankStep_liked m h ([], ∅, ∅, ∅)
    simp only [List.nil_append] at hl
    rw [hl]

theorem likedPagesSpec_append_unliked (m : RecommenderModel) (h : List HRow)
    (r : HRow)
    (hr : ¬ ((m.title_to_idx r.book_title).isSome = true ∧ (4 : ℚ) ≤ r.rating)) :
    likedPagesSpec m (h ++ [r]) = likedPagesSpec m h := by
  unfold likedPagesSpec
  rw [List.filterMap_append]
  suffices hnil : List.filterMap _ [r] = [] by rw [hnil, List.append_nil]
  cases hres : m.title_to_idx r.book_title with
  | none => simp [List.filterMap_cons, hres]
  | some idx =>
      have h4 : ¬ (4 : ℚ) ≤ r.rating := by
        intro h4
        exact hr ⟨by rw [hres]; rfl, h4⟩
      cases hpc : r.page_count with
      | none => simp [List.filterMap_cons, hres, hpc]
      | some pc => simp [List.filterMap_cons, hres, hpc, h4]

/-- C9: `_prepare_rerank_context` derives the average page length only
from resolvable liked rows (appending any row that is unresolvable or
not rated at least 4 leaves the average unchanged, and it is 0 when no
liked row contributes a page count), and the returned disliked-genre set
is the raw `rating <= 2` genre set minus the preferred set, so no genre
is simultaneously preferred and disliked. -/
theorem rerank_context_sound (m : RecommenderModel) (h : List HRow) :
    (∀ r : HRow,
        ¬ ((m.title_to_idx r.book_title).isSome = true ∧ (4 : ℚ) ≤ r.rating) →
        (_prepare_rerank_context m (h ++ [r])).1.avg_page_count
          = (_prepare_rerank_context m h).1.avg_page_count)
    ∧ (likedPagesSpec m h = [] →
        (_prepare_rerank_context m h).1.avg_page_count = 0)
    ∧ (_prepare_rerank_context m h).1.disliked_genres
        = rawDisliked m h \ (_prepare_rerank_context m h).1.preferred_genres
    ∧ (_prepare_rerank_context m h).1.disliked_genres
        ∩ (_prepare_rerank_context m h).1.preferred_genres = ∅ := by
  refine ⟨?_, ?_, ?_, ?_⟩
  · intro r hr
    rw [prepare_avg_formula, prepare_avg_formula,
      likedPagesSpec_append_unliked m h r hr]
  · intro hnil
    rw [prepare_avg_formula, if_pos hnil]
  · by_cases hh : h = []
    · subst hh
      simp [_prepare_rerank_context, rawDisliked]
    · simp only [_prepare_rerank_context, if_neg hh]
      have hd := foldl_rerankStep_disl m h ([], ∅, ∅, ∅)
      rw [hd]
      rfl
  · by_cases hh : h = []
    · subst hh
      simp [_prepare_rerank_context]
    · simp only [_prepare_rerank_context, if_neg hh]
      exact Finset.sdiff_inter_self _ _

/-- Witness for C9: appending the resolvable but disliked row
`(Beta, rating 2)` to `hEx` leaves the average page length unchanged; a
history with only an unknown title has average 0; and on `hEx` the
disliked and preferred genre sets are disjoint. -/
theorem rerank_context_sound_witness :
    (_prepare_rerank_context mEx (hEx ++ [⟨"Beta", 2, some 50⟩])).1.avg_page_count
        = (_prepare_rerank_context mEx hEx).1.avg_page_count
    ∧ (_prepare_rerank_context mEx [⟨"Gamma", 1, some 10⟩]).1.avg_page_count = 0
    ∧ (_prepare_rerank_context mEx hEx).1.disliked_genres
        ∩ (_prepare_rerank_context mEx hEx).1.preferred_genres = ∅ :=
  ⟨(rerank_context_sound mEx hEx).1 ⟨"Beta", 2, some 50⟩
      (by with_unfolding_all decide),
   (rerank_context_sound mEx [⟨"Gamma", 1, some 10⟩]).2.1
      (by with_unfolding_all decide),
   (rerank_context_sound mEx hEx).2.2.2⟩

/-- C10: when the user already has a stored profile,
`recommend_with_collaborative_filtering` uses the stored vector as-is —
it neither recomputes the taste vector nor upserts the profile store —
and returns the facade state unchanged, so the `UserProfileIndex`
(vectors and both id maps) is untouched, whatever the current
interaction history is. -/
theorem stored_profile_is_used_as_is (f : FacadeState) (user_id : String)
    (top_n : ℕ) (v : List ℚ)
    (hv : alookup user_id f.profile_repo = some v) :
    recommend_with_collaborative_filtering f user_id top_n
      = (collabRecommend f.upi f.interactions f.model v
           (_prepare_rerank_context f.model (f.interactions user_id)).2
           (_prepare_rerank_context f.model (f.interactions user_id)).1
           top_n COLLABORATIVE_N_NEIGHBORS,
         f) := by
  simp [recommend_with_collaborative_filtering, _get_or_create_user_profile, hv]

/-- Witness for C10: user `"u7"` of `facEx` has the stored profile
`[1,0]`; the collaborative path returns it untouched together with the
unchanged state. -/
theorem stored_profile_is_used_as_is_witness :
    recommend_with_collaborative_filtering facEx "u7" 3
      = (collabRecommend facEx.upi facEx.interactions facEx.model [1, 0]
           (_prepare_rerank_context facEx.model (facEx.interactions "u7")).2
           (_prepare_rerank_context facEx.model (facEx.interactions "u7")).1
           3 COLLABORATIVE_N_NEIGHBORS,
         facEx) :=
  stored_profile_is_used_as_is facEx "u7" 3 [1, 0]
    (by with_unfolding_all decide)
